import Mathlib

/-!
Verification of the core services of the limnological-data server
(filter building, value normalization, output formatting, export
generation).  The TypeScript services are embedded shallowly:

* `FilterService.buildFilter` (src/services/filterService.ts),
* `DataFormatterService` (normalizeDate, parseLocaleNumber,
  formatListOutput, formatDetailOutput),
* `ExportService` (generateExportFile, generateCSV, escapeCsvValue,
  encodeBuffer).

JavaScript scalar values are modeled by the inductive `JSVal`
(numbers as rationals, objects as association lists).  Behavior of
JS builtins that the services call (`Date`, `Number`, `String.trim`,
regexes) is modeled explicitly next to the functions that use it;
the two best-effort fallbacks whose exact behavior lives inside the
JS engine (the `new Date(string)` free-form parser and the XLSX
library) are passed in as parameters, so every theorem quantifies
over all of their behaviors.
-/

/-- Scalar JavaScript values flowing through the services: `undefined`,
`null`, strings, numbers (modeled as exact rationals), and plain objects
(ordered association lists of fields). -/
inductive JSVal where
  | vUndef : JSVal
  | vNull : JSVal
  | vStr : String → JSVal
  | vNum : ℚ → JSVal
  | vObj : List (String × JSVal) → JSVal

/-- JavaScript truthiness of a `JSVal` (`undefined`, `null`, `''` and `0`
are falsy; every object is truthy). -/
def jsTruthy : JSVal → Bool
  | .vUndef => false
  | .vNull => false
  | .vStr s => !(s == "")
  | .vNum q => !(q == 0)
  | .vObj _ => true

/-- The loose comparison `value == null`, true exactly for `null` and
`undefined`. -/
def isNullish : JSVal → Bool
  | .vUndef => true
  | .vNull => true
  | _ => false

/-- Strict equality `value === ''`. -/
def isEmptyStrVal : JSVal → Bool
  | .vStr s => s == ""
  | _ => false

/-- Whether a value is exactly `undefined`. -/
def isUndef : JSVal → Bool
  | .vUndef => true
  | _ => false

/-- JavaScript property read `obj[key]` on a plain object modeled as an
ordered association list (object keys are unique, so first match wins). -/
def lookupField : List (String × JSVal) → String → Option JSVal
  | [], _ => none
  | (k, v) :: rest, key => if k = key then some v else lookupField rest key

/-- JSON serialization at one object level: `JSON.stringify` (used by
`res.json`) drops properties whose value is `undefined`, so only the
non-`undefined` fields appear in the serialized output. -/
def jsonFields (fields : List (String × JSVal)) : List (String × JSVal) :=
  fields.filter (fun kv => !isUndef kv.2)

/-- Property read on a string-valued map (the `columnMap`); `none` models
`undefined` for keys the map does not contain. -/
def lookupCol : List (String × String) → String → Option String
  | [], _ => none
  | (k, c) :: rest, key => if k = key then some c else lookupCol rest key

/-- Result shape of `FilterService.buildFilter`: the `WHERE` clause text,
the parallel bound-parameter list, and the next free placeholder index. -/
structure FilterResult where
  whereClause : String
  params : List JSVal
  nextIndex : Nat

namespace FilterService

/-- The `for (const key in query)` loop of `buildFilter`: walks the query
entries in iteration order; for each key that is present and truthy in
`columnMap` and whose value is neither `null`/`undefined` nor `''`, pushes
the fragment `columnName = $paramIndex`, pushes the value, and increments
the index.  Returns `(whereClauses, params, paramIndex)`. -/
def buildFilterLoop (columnMap : List (String × String)) :
    List (String × JSVal) → Nat → List String × List JSVal × Nat
  | [], paramIndex => ([], [], paramIndex)
  | (key, value) :: rest, paramIndex =>
    match lookupCol columnMap key with
    | some columnName =>
      if !(columnName == "") && !isNullish value && !isEmptyStrVal value then
        let r := buildFilterLoop columnMap rest (paramIndex + 1)
        ((columnName ++ " = $" ++ toString paramIndex) :: r.1, value :: r.2.1, r.2.2)
      else
        buildFilterLoop columnMap rest paramIndex
    | none => buildFilterLoop columnMap rest paramIndex

/-- `FilterService.buildFilter(query, columnMap, startIndex)`: runs the
loop, then returns an empty clause with `nextIndex = startIndex` when no
fragment was produced, else the fragments joined with `' AND '` behind
`WHERE`. -/
def buildFilter (query : List (String × JSVal)) (columnMap : List (String × String))
    (startIndex : Nat) : FilterResult :=
  let r := buildFilterLoop columnMap query startIndex
  if r.1.isEmpty then
    { whereClause := "", params := [], nextIndex := startIndex }
  else
    { whereClause := "WHERE " ++ String.intercalate " AND " r.1
      params := r.2.1
      nextIndex := r.2.2 }

/-- The guard of the loop body, as a predicate on one query entry: the key
is in the column map with a truthy (nonempty) column name and the value is
neither nullish nor the empty string. -/
def allowedEntry (columnMap : List (String × String)) (kv : String × JSVal) : Bool :=
  match lookupCol columnMap kv.1 with
  | some c => !(c == "") && !isNullish kv.2 && !isEmptyStrVal kv.2
  | none => false

/-- The fragment text generated for an (index, entry) pair. -/
def mkFrag (columnMap : List (String × String)) (p : Nat × (String × JSVal)) : String :=
  (lookupCol columnMap p.2.1).getD "" ++ " = $" ++ toString p.1

end FilterService

section FilterLemmas

open FilterService

lemma mem_of_mem_enumFrom {α : Type} {p : Nat × α} :
    ∀ {l : List α} {i : Nat}, p ∈ List.enumFrom i l → p.2 ∈ l := by
  intro l
  induction l with
  | nil => intro i h; simp [List.enumFrom] at h
  | cons a t ih =>
    intro i h
    rw [List.enumFrom_cons] at h
    rcases List.mem_cons.mp h with h1 | h2
    · subst h1; exact List.mem_cons_self a t
    · exact List.mem_cons_of_mem a (ih h2)

lemma map_snd_enumFrom {α : Type} :
    ∀ (l : List α) (i : Nat), (List.enumFrom i l).map Prod.snd = l := by
  intro l
  induction l with
  | nil => intro i; rfl
  | cons a t ih => intro i; rw [List.enumFrom_cons]; simp [ih]

lemma length_enumFrom' {α : Type} :
    ∀ (l : List α) (i : Nat), (List.enumFrom i l).length = l.length := by
  intro l
  induction l with
  | nil => intro i; rfl
  | cons a t ih => intro i; rw [List.enumFrom_cons]; simp [ih]

/-- Full characterization of the loop: it keeps exactly the allow-listed,
non-empty-valued entries, numbers them contiguously from the start index,
and advances the index by the number kept. -/
lemma buildFilterLoop_eq (columnMap : List (String × String)) :
    ∀ (query : List (String × JSVal)) (i : Nat),
      buildFilterLoop columnMap query i =
        ((List.enumFrom i (query.filter (allowedEntry columnMap))).map (mkFrag columnMap),
         (query.filter (allowedEntry columnMap)).map Prod.snd,
         i + (query.filter (allowedEntry columnMap)).length) := by
  intro query
  induction query with
  | nil => intro i; simp [buildFilterLoop, List.enumFrom]
  | cons kv rest ih =>
    intro i
    obtain ⟨key, value⟩ := kv
    rw [buildFilterLoop]
    rcases h : lookupCol columnMap key with _ | c
    · have ha : allowedEntry columnMap (key, value) = false := by
        simp [allowedEntry, h]
      simp only [List.filter_cons, ha, cond_false, Bool.false_eq_true, if_neg]
      exact ih i
    · by_cases hc : (!(c == "") && !isNullish value && !isEmptyStrVal value) = true
      · have ha : allowedEntry columnMap (key, value) = true := by
          simp only [allowedEntry, h]; exact hc
        simp only [hc, if_true, ih (i + 1), List.filter_cons, ha, if_pos]
        rw [List.enumFrom_cons]
        simp only [List.map_cons, List.length_cons, Prod.mk.injEq]
        refine ⟨by simp [mkFrag, h], by trivial, by omega⟩
      · have ha : allowedEntry columnMap (key, value) = false := by
          simp only [allowedEntry, h]
          exact Bool.not_eq_true _ ▸ (by simpa using hc)
        dsimp only
        rw [if_neg hc]
        simp only [List.filter_cons, ha, Bool.false_eq_true, if_neg]
        exact ih i

lemma buildFilter_params_eq (query : List (String × JSVal))
    (columnMap : List (String × String)) (startIndex : Nat) :
    (buildFilter query columnMap startIndex).params =
      (query.filter (allowedEntry columnMap)).map Prod.snd := by
  rw [buildFilter, buildFilterLoop_eq]
  by_cases h : (query.filter (allowedEntry columnMap)) = []
  · simp [h, List.enumFrom]
  · have : ((List.enumFrom startIndex (query.filter (allowedEntry columnMap))).map
        (mkFrag columnMap)).isEmpty = false := by
      rcases List.exists_cons_of_ne_nil h with ⟨a, t, hat⟩
      rw [hat, List.enumFrom_cons]
      rfl
    simp only [this]
    rfl

lemma buildFilter_nextIndex_eq (query : List (String × JSVal))
    (columnMap : List (String × String)) (startIndex : Nat) :
    (buildFilter query columnMap startIndex).nextIndex =
      startIndex + (query.filter (allowedEntry columnMap)).length := by
  rw [buildFilter, buildFilterLoop_eq]
  by_cases h : (query.filter (allowedEntry columnMap)) = []
  · simp [h, List.enumFrom]
  · have : ((List.enumFrom startIndex (query.filter (allowedEntry columnMap))).map
        (mkFrag columnMap)).isEmpty = false := by
      rcases List.exists_cons_of_ne_nil h with ⟨a, t, hat⟩
      rw [hat, List.enumFrom_cons]
      rfl
    simp only [this]
    rfl

end FilterLemmas

/-- C1: for every input mapping, column map and start index,
`FilterService.buildFilter` produces predicate fragments that reference
only column names taken from the column map at keys present in the input,
a `params` sequence containing only values of allow-listed keys, and a key
absent from the column map contributes nothing: deleting such an entry
from the input leaves the whole result unchanged. -/
theorem c1_buildFilter_injection_safety (query : List (String × JSVal))
    (columnMap : List (String × String)) (startIndex : Nat) :
    (∀ p ∈ (FilterService.buildFilter query columnMap startIndex).params,
       ∃ k, (k, p) ∈ query ∧ ∃ c, lookupCol columnMap k = some c ∧ c ≠ "") ∧
    (∀ f ∈ (FilterService.buildFilterLoop columnMap query startIndex).1,
       ∃ (k : String) (v : JSVal) (c : String) (j : Nat),
         (k, v) ∈ query ∧ lookupCol columnMap k = some c ∧
         f = c ++ " = $" ++ toString j) ∧
    (∀ pre post k v, lookupCol columnMap k = none →
       query = pre ++ (k, v) :: post →
       FilterService.buildFilter query columnMap startIndex =
         FilterService.buildFilter (pre ++ post) columnMap startIndex) := by
  refine ⟨?_, ?_, ?_⟩
  · intro p hp
    rw [buildFilter_params_eq] at hp
    rcases List.mem_map.mp hp with ⟨⟨k, v⟩, hkv, hv⟩
    have hmem := List.mem_of_mem_filter hkv
    have hall := List.of_mem_filter hkv
    cases hv
    refine ⟨k, hmem, ?_⟩
    rcases hcol : lookupCol columnMap k with _ | c
    · rw [FilterService.allowedEntry, hcol] at hall; exact absurd hall (by simp)
    · refine ⟨c, rfl, ?_⟩
      rw [FilterService.allowedEntry, hcol] at hall
      intro hce
      subst hce
      simp at hall
  · intro f hf
    rw [buildFilterLoop_eq] at hf
    rcases List.mem_map.mp hf with ⟨⟨j, k, v⟩, hjkv, hfrag⟩
    have hmem : (k, v) ∈ query.filter (FilterService.allowedEntry columnMap) :=
      mem_of_mem_enumFrom hjkv
    have hall := List.of_mem_filter hmem
    rcases hcol : lookupCol columnMap k with _ | c
    · rw [FilterService.allowedEntry, hcol] at hall; exact absurd hall (by simp)
    · refine ⟨k, v, c, j, List.mem_of_mem_filter hmem, hcol, ?_⟩
      rw [← hfrag, FilterService.mkFrag, hcol]
      rfl
  · intro pre post k v hnone hq
    subst hq
    have hfilter : (pre ++ (k, v) :: post).filter (FilterService.allowedEntry columnMap) =
        (pre ++ post).filter (FilterService.allowedEntry columnMap) := by
      rw [List.filter_append, List.filter_append, List.filter_cons]
      have : FilterService.allowedEntry columnMap (k, v) = false := by
        simp [FilterService.allowedEntry, hnone]
      simp [this]
    rw [FilterService.buildFilter, FilterService.buildFilter,
        buildFilterLoop_eq, buildFilterLoop_eq, hfilter]

/-- Witness for C1 at a concrete input: the query carries an allow-listed
key `idcampanha` and a key `evil` absent from the column map; the single
bound value `'5'` indeed belongs to an allow-listed key. -/
theorem c1_witness :
    ∃ k, (k, JSVal.vStr "5") ∈
        [("idcampanha", JSVal.vStr "5"), ("evil", JSVal.vStr "x")] ∧
      ∃ c, lookupCol [("idcampanha", "a.idcampanha"), ("idsitio", "a.idsitio")] k =
          some c ∧ c ≠ "" := by
  have h := (c1_buildFilter_injection_safety
    [("idcampanha", JSVal.vStr "5"), ("evil", JSVal.vStr "x")]
    [("idcampanha", "a.idcampanha"), ("idsitio", "a.idsitio")] 1).1
  refine h (JSVal.vStr "5") ?_
  rw [show (FilterService.buildFilter
      [("idcampanha", JSVal.vStr "5"), ("evil", JSVal.vStr "x")]
      [("idcampanha", "a.idcampanha"), ("idsitio", "a.idsitio")] 1).params =
      [JSVal.vStr "5"] from rfl]
  exact List.mem_singleton.mpr rfl

lemma enumFrom_map_mkFrag_getD (columnMap : List (String × String)) :
    ∀ (l : List (String × JSVal)) (i j : Nat), j < l.length →
      ∃ c, ((List.enumFrom i l).map (FilterService.mkFrag columnMap)).getD j "" =
        c ++ " = $" ++ toString (i + j) := by
  intro l
  induction l with
  | nil => intro i j hj; exact absurd hj (by simp)
  | cons a t ih =>
    intro i j hj
    rw [List.enumFrom_cons, List.map_cons]
    cases j with
    | zero =>
      exact ⟨(lookupCol columnMap a.1).getD "", by simp [FilterService.mkFrag]⟩
    | succ j' =>
      obtain ⟨c, hc⟩ := ih (i + 1) j' (by simpa using hj)
      refine ⟨c, ?_⟩
      rw [List.getD_cons_succ, hc, show i + (j' + 1) = i + 1 + j' from by omega]

/-- C2: the fragment list and `params` always have the same length, the
placeholder indices used are exactly `startIndex, …, startIndex + len - 1`
with `nextIndex = startIndex + len`, the `whereClause` is the `' AND '`
join of the fragments behind `WHERE ` (empty when there are none), and
when no fragment is produced the result is the empty clause, empty
parameters and `nextIndex = startIndex`. -/
theorem c2_buildFilter_invariants (query : List (String × JSVal))
    (columnMap : List (String × String)) (startIndex : Nat) :
    (FilterService.buildFilterLoop columnMap query startIndex).1.length =
        (FilterService.buildFilter query columnMap startIndex).params.length ∧
    (FilterService.buildFilter query columnMap startIndex).nextIndex =
        startIndex + (FilterService.buildFilter query columnMap startIndex).params.length ∧
    (∀ j, j < (FilterService.buildFilterLoop columnMap query startIndex).1.length →
       ∃ c, (FilterService.buildFilterLoop columnMap query startIndex).1.getD j "" =
         c ++ " = $" ++ toString (startIndex + j)) ∧
    (FilterService.buildFilter query columnMap startIndex).whereClause =
      (if (FilterService.buildFilterLoop columnMap query startIndex).1.isEmpty then ""
       else "WHERE " ++ String.intercalate " AND "
         (FilterService.buildFilterLoop columnMap query startIndex).1) ∧
    ((FilterService.buildFilterLoop columnMap query startIndex).1 = [] →
       (FilterService.buildFilter query columnMap startIndex).whereClause = "" ∧
       (FilterService.buildFilter query columnMap startIndex).params = [] ∧
       (FilterService.buildFilter query columnMap startIndex).nextIndex = startIndex) := by
  have hk := buildFilterLoop_eq columnMap query startIndex
  refine ⟨?_, ?_, ?_, ?_, ?_⟩
  · rw [hk, buildFilter_params_eq]
    simp only [List.length_map]
    exact length_enumFrom' _ _
  · rw [buildFilter_nextIndex_eq, buildFilter_params_eq]
    simp
  · intro j hj
    rw [hk] at hj ⊢
    simp only [List.length_map, length_enumFrom'] at hj
    exact enumFrom_map_mkFrag_getD columnMap _ startIndex j hj
  · rw [FilterService.buildFilter]
    by_cases h : (FilterService.buildFilterLoop columnMap query startIndex).1.isEmpty
    · simp only [h, if_true]
    · simp only [Bool.not_eq_true] at h
      simp only [h, if_neg, Bool.false_eq_true, not_false_iff]
  · intro hnil
    rw [FilterService.buildFilter]
    simp only [hnil, List.isEmpty_nil, if_true]
    refine ⟨?_, ?_, ?_⟩ <;> trivial

/-- Witness for C2 at a concrete input: two allow-listed keys starting at
index 3 give fragment `$3` at position 0, i.e. a fragment text of the form
`c = $3`. -/
theorem c2_witness :
    ∃ c, (FilterService.buildFilterLoop
        [("idcampanha", "a.idcampanha"), ("idsitio", "a.idsitio")]
        [("idcampanha", JSVal.vStr "5"), ("idsitio", JSVal.vNum 2)] 3).1.getD 0 "" =
      c ++ " = $" ++ toString (3 + 0) := by
  exact (c2_buildFilter_invariants
    [("idcampanha", JSVal.vStr "5"), ("idsitio", JSVal.vNum 2)]
    [("idcampanha", "a.idcampanha"), ("idsitio", "a.idsitio")] 3).2.2.1 0
    (by rw [show (FilterService.buildFilterLoop
      [("idcampanha", "a.idcampanha"), ("idsitio", "a.idsitio")]
      [("idcampanha", JSVal.vStr "5"), ("idsitio", JSVal.vNum 2)] 3).1 =
      ["a.idcampanha = $3", "a.idsitio = $4"] from rfl]; decide)

/-! ## DataFormatterService: date normalization -/

/-- Whitespace characters stripped by `String.prototype.trim` (the ASCII
ones; the values this server trims are dates and numbers, never exotic
Unicode spaces). -/
def isWSChar (c : Char) : Bool :=
  c = ' ' || c = '\t' || c = '\n' || c = '\r' || c = '\x0b' || c = '\x0c'

/-- `value.trim()`: strips leading and trailing whitespace. -/
def jsTrim (s : String) : String :=
  String.mk (((s.data.dropWhile isWSChar).reverse.dropWhile isWSChar).reverse)

/-- `\d` of the normalization regexes. -/
def isDigitCh (c : Char) : Bool :=
  '0' ≤ c && c ≤ '9'

/-- Numeric value of a digit character. -/
def dv (c : Char) : Nat :=
  c.toNat - '0'.toNat

/-- `Number` of a two-digit capture. -/
def num2 (a b : Char) : Nat :=
  10 * dv a + dv b

/-- `Number` of a four-digit capture. -/
def num4 (a b c d : Char) : Nat :=
  1000 * dv a + 100 * dv b + 10 * dv c + dv d

/-- The regex `^(\d{4})-(\d{2})-(\d{2})` (a prefix match: anything may
follow the tenth character), returning `(year, month, day)`. -/
def matchISO (s : String) : Option (Nat × Nat × Nat) :=
  match s.data with
  | a :: b :: c :: d :: h1 :: e :: f :: h2 :: g :: h :: _ =>
    if isDigitCh a && isDigitCh b && isDigitCh c && isDigitCh d && h1 = '-' &&
       isDigitCh e && isDigitCh f && h2 = '-' && isDigitCh g && isDigitCh h then
      some (num4 a b c d, num2 e f, num2 g h)
    else none
  | _ => none

/-- The regex `^(\d{4})-(\d{2})-(\d{2})$`: like `matchISO` but anchored at
the end, so it recognizes exactly the canonical `YYYY-MM-DD` strings. -/
def matchFullISO (s : String) : Option (Nat × Nat × Nat) :=
  match s.data with
  | [a, b, c, d, h1, e, f, h2, g, h] =>
    if isDigitCh a && isDigitCh b && isDigitCh c && isDigitCh d && h1 = '-' &&
       isDigitCh e && isDigitCh f && h2 = '-' && isDigitCh g && isDigitCh h then
      some (num4 a b c d, num2 e f, num2 g h)
    else none
  | _ => none

/-- The regex `^(\d{1,2})\/(\d{1,2})\/(\d{4})$`, returning
`(day, month, year)`.  The three possible shapes (1 or 2 digits for day
and month) are disjoint, and backtracking of the greedy `\d{1,2}` can
never turn a failure into a match, so the regex is equivalent to this
case split. -/
def matchDMY (s : String) : Option (Nat × Nat × Nat) :=
  match s.data with
  | [a, s1, b, s2, p, q, r, t] =>
    if isDigitCh a && s1 = '/' && isDigitCh b && s2 = '/' &&
       isDigitCh p && isDigitCh q && isDigitCh r && isDigitCh t then
      some (dv a, dv b, num4 p q r t)
    else none
  | [x1, x2, x3, x4, x5, p, q, r, t] =>
    if isDigitCh x1 && isDigitCh x2 && x3 = '/' && isDigitCh x4 && x5 = '/' &&
       isDigitCh p && isDigitCh q && isDigitCh r && isDigitCh t then
      some (num2 x1 x2, dv x4, num4 p q r t)
    else if isDigitCh x1 && x2 = '/' && isDigitCh x3 && isDigitCh x4 && x5 = '/' &&
       isDigitCh p && isDigitCh q && isDigitCh r && isDigitCh t then
      some (dv x1, num2 x3 x4, num4 p q r t)
    else none
  | [a1, a2, s1, b1, b2, s2, p, q, r, t] =>
    if isDigitCh a1 && isDigitCh a2 && s1 = '/' && isDigitCh b1 && isDigitCh b2 &&
       s2 = '/' && isDigitCh p && isDigitCh q && isDigitCh r && isDigitCh t then
      some (num2 a1 a2, num2 b1 b2, num4 p q r t)
    else none
  | _ => none

/-- The regex `^(\d{1,2})-(\d{1,2})-(\d{4})$`, returning
`(month, day, year)`. -/
def matchMDY (s : String) : Option (Nat × Nat × Nat) :=
  match s.data with
  | [a, s1, b, s2, p, q, r, t] =>
    if isDigitCh a && s1 = '-' && isDigitCh b && s2 = '-' &&
       isDigitCh p && isDigitCh q && isDigitCh r && isDigitCh t then
      some (dv a, dv b, num4 p q r t)
    else none
  | [x1, x2, x3, x4, x5, p, q, r, t] =>
    if isDigitCh x1 && isDigitCh x2 && x3 = '-' && isDigitCh x4 && x5 = '-' &&
       isDigitCh p && isDigitCh q && isDigitCh r && isDigitCh t then
      some (num2 x1 x2, dv x4, num4 p q r t)
    else if isDigitCh x1 && x2 = '-' && isDigitCh x3 && isDigitCh x4 && x5 = '-' &&
       isDigitCh p && isDigitCh q && isDigitCh r && isDigitCh t then
      some (dv x1, num2 x3 x4, num4 p q r t)
    else none
  | [a1, a2, s1, b1, b2, s2, p, q, r, t] =>
    if isDigitCh a1 && isDigitCh a2 && s1 = '-' && isDigitCh b1 && isDigitCh b2 &&
       s2 = '-' && isDigitCh p && isDigitCh q && isDigitCh r && isDigitCh t then
      some (num2 a1 a2, num2 b1 b2, num4 p q r t)
    else none
  | _ => none

/-- Days since the Unix epoch of a proleptic-Gregorian `(year, month,
day)` triple, with out-of-range days rolling over exactly as
`Date.UTC(y, m - 1, d)` does (Howard Hinnant's `days_from_civil`). -/
def daysFromCivil (y m d : Int) : Int :=
  let y2 := if m ≤ 2 then y - 1 else y
  let era := y2.fdiv 400
  let yoe := y2 - era * 400
  let doy := (153 * (if m > 2 then m - 3 else m + 9) + 2).fdiv 5 + d - 1
  let doe := yoe * 365 + yoe.fdiv 4 - yoe.fdiv 100 + doy
  era * 146097 + doe - 719468

/-- The `(getUTCFullYear, getUTCMonth + 1, getUTCDate)` triple of the
date that lies `z0` days after the Unix epoch (Howard Hinnant's
`civil_from_days`). -/
def civilFromDays (z0 : Int) : Int × Int × Int :=
  let z := z0 + 719468
  let era := z.fdiv 146097
  let doe := z - era * 146097
  let yoe := (doe - doe.fdiv 1460 + doe.fdiv 36524 - doe.fdiv 146096).fdiv 365
  let y := yoe + era * 400
  let doy := doe - (365 * yoe + yoe.fdiv 4 - yoe.fdiv 100)
  let mp := (5 * doy + 2).fdiv 153
  let dd := doy - (153 * mp + 2).fdiv 5 + 1
  let m := if mp < 10 then mp + 3 else mp - 9
  (if m ≤ 2 then y + 1 else y, m, dd)

/-- Two-digit zero padding as produced by `toISOString`. -/
def pad2 (n : Nat) : String :=
  if n < 10 then "0" ++ toString n else toString n

/-- Four-digit zero padding as produced by `toISOString` for years in
`0…9999`. -/
def pad4 (n : Nat) : String :=
  if n < 10 then "000" ++ toString n
  else if n < 100 then "00" ++ toString n
  else if n < 1000 then "0" ++ toString n
  else toString n

/-- The runtime input of `normalizeDate`: a `Date` object (carrying its
UTC `(year, month, day)` triple, or nothing when it is an Invalid Date),
a string, `null`, or `undefined`. -/
inductive DateInput where
  | jsDate : Option (Int × Int × Int) → DateInput
  | jsStr : String → DateInput
  | jsNull : DateInput
  | jsUndef : DateInput

namespace DataFormatterService

/-- `DataFormatterService.buildISODate(y, m, d)`: basic range check, then
construct `Date.UTC(y, m - 1, d)` and confirm the reconstructed UTC
year/month/day equal the inputs (rejecting calendar overflow such as
`31/02`); on success format as `YYYY-MM-DD` per `toISOString().slice(0,
10)`.  (`Date.UTC` never throws, so the function's `catch` branch is
unreachable.) -/
def buildISODate (y m d : Nat) : Option String :=
  if m < 1 || m > 12 || d < 1 || d > 31 || y < 1900 || y > 3000 then none
  else
    let r := civilFromDays (daysFromCivil (y : Int) (m : Int) (d : Int))
    if r.1 = (y : Int) ∧ r.2.1 = (m : Int) ∧ r.2.2 = (d : Int) then
      some (pad4 y ++ "-" ++ pad2 m ++ "-" ++ pad2 d)
    else none

/-- `DataFormatterService.normalizeDate(value)`.  The free-form
`new Date(trimmed)` fallback parse lives inside the JS engine, so its
behavior is a parameter `dateParse`: it returns the branch's final
`YYYY-MM-DD` string when the engine can parse the text and `none`
otherwise; every theorem below holds for all of its behaviors.  A `Date`
object input is reconstructed from its UTC components and formatted
(modeled for years `0…9999`; `toISOString` uses an expanded year format
outside that range). -/
def normalizeDate (dateParse : String → Option String) : DateInput → Option String
  | .jsNull => none
  | .jsUndef => none
  | .jsDate none => none
  | .jsDate (some (y, m, d)) => some (pad4 y.toNat ++ "-" ++ pad2 m.toNat ++ "-" ++ pad2 d.toNat)
  | .jsStr value =>
    if value = "" then none
    else
      let trimmed := jsTrim value
      if trimmed = "" then none
      else
        match matchISO trimmed with
        | some (y, m, d) => buildISODate y m d
        | none =>
          match matchDMY trimmed with
          | some (d, m, y) => buildISODate y m d
          | none =>
            match matchMDY trimmed with
            | some (m, d, y) => buildISODate y m d
            | none => dateParse trimmed

end DataFormatterService

section DateLemmas

/-- A string accepted by the anchored `DD/MM/YYYY` regex is rejected by
the ISO prefix regex: the slash at position 1 or 2 cannot be one of the
four leading year digits. -/
lemma matchISO_none_of_matchDMY {s : String} {t : Nat × Nat × Nat}
    (hm : matchDMY s = some t) : matchISO s = none := by
  unfold matchDMY at hm
  unfold matchISO
  split at hm
  case _ a s1 b s2 p q r u heq =>
    rw [heq]
  case _ x1 x2 x3 x4 x5 p q r u heq =>
    rw [heq]
  case _ a1 a2 s1 b1 b2 s2 p q r u heq =>
    rw [heq]
    split at hm
    case isTrue hcond =>
      simp only [Bool.and_eq_true, decide_eq_true_eq] at hcond
      obtain ⟨⟨⟨⟨⟨⟨⟨⟨⟨hd1, hd2⟩, hs1⟩, hb1⟩, hb2⟩, hs2⟩, hp⟩, hq⟩, hr⟩, hu⟩ := hcond
      subst hs1
      simp [isDigitCh]
    case isFalse => exact absurd hm (by simp)
  case _ =>
    exact absurd hm (by simp)

end DateLemmas

lemma digit_not_ws {c : Char} (h : isDigitCh c = true) : isWSChar c = false := by
  by_contra hne
  rw [Bool.not_eq_false] at hne
  rw [isWSChar] at hne
  simp only [Bool.or_eq_true, decide_eq_true_eq] at hne
  rcases hne with ((((h1 | h2) | h3) | h4) | h5) | h6 <;>
    (subst_vars; exact absurd h (by decide))

/-- C4: `normalizeDate("31/02/2023")` is `null` (calendar overflow) and
`normalizeDate("15/03/2023")` is `"2023-03-15"`; in general every string
accepted by the `DD/MM/YYYY` regex whose day/month/year are not reproduced
by the UTC-reconstructed date (i.e. do not form a real calendar date)
normalizes to `null` — for every behavior of the engine's free-form
fallback parser. -/
theorem c4_normalizeDate_dmy (dateParse : String → Option String) :
    DataFormatterService.normalizeDate dateParse (.jsStr "31/02/2023") = none ∧
    DataFormatterService.normalizeDate dateParse (.jsStr "15/03/2023") = some "2023-03-15" ∧
    (∀ (value : String) (d m y : Nat),
      matchDMY (jsTrim value) = some (d, m, y) →
      civilFromDays (daysFromCivil (y : Int) (m : Int) (d : Int)) ≠
        ((y : Int), (m : Int), (d : Int)) →
      DataFormatterService.normalizeDate dateParse (.jsStr value) = none) := by
  refine ⟨rfl, rfl, ?_⟩
  intro value d m y hm hne
  by_cases hv : value = ""
  · subst hv
    rw [show jsTrim "" = "" from rfl] at hm
    rw [show matchDMY "" = (none : Option (Nat × Nat × Nat)) from rfl] at hm
    exact Option.noConfusion hm
  · have htne : ¬ jsTrim value = "" := by
      intro h0
      rw [h0] at hm
      rw [show matchDMY "" = (none : Option (Nat × Nat × Nat)) from rfl] at hm
      exact Option.noConfusion hm
    have hiso : matchISO (jsTrim value) = none := matchISO_none_of_matchDMY hm
    simp only [DataFormatterService.normalizeDate, if_neg hv, if_neg htne, hiso, hm]
    rw [DataFormatterService.buildISODate]
    by_cases hb : (m < 1 || m > 12 || d < 1 || d > 31 || y < 1900 || y > 3000) = true
    · rw [if_pos hb]
    · rw [if_neg hb]
      have hcc : ¬ ((civilFromDays (daysFromCivil (y : Int) (m : Int) (d : Int))).1 = (y : Int) ∧
          (civilFromDays (daysFromCivil (y : Int) (m : Int) (d : Int))).2.1 = (m : Int) ∧
          (civilFromDays (daysFromCivil (y : Int) (m : Int) (d : Int))).2.2 = (d : Int)) := by
        intro hand
        obtain ⟨h1, h2, h3⟩ := hand
        apply hne
        rw [Prod.ext_iff]
        exact ⟨h1, by rw [Prod.ext_iff]; exact ⟨h2, h3⟩⟩
      simp only [if_neg hcc]

/-- Witness for C4's general part at `29/02/2023`: 2023 is not a leap
year, the reconstructed date differs, and `normalizeDate` rejects it. -/
theorem c4_witness :
    matchDMY (jsTrim "29/02/2023") = some (29, 2, 2023) ∧
    DataFormatterService.normalizeDate (fun _ => none) (.jsStr "29/02/2023") = none := by
  refine ⟨by decide, ?_⟩
  exact (c4_normalizeDate_dmy (fun _ => none)).2.2 "29/02/2023" 29 2 2023
    (by decide) (by decide)

/-- The claim's notion of a canonical ISO output: a ten-character
`YYYY-MM-DD` string that `buildISODate` reproduces verbatim from its own
year/month/day. -/
def isCanonicalISO (s : String) : Bool :=
  match matchFullISO s with
  | some (y, m, d) => DataFormatterService.buildISODate y m d == some s
  | none => false

/-- C6: `normalizeDate` is idempotent on its successful canonical
outputs: whenever `normalizeDate x = some s` with `s` a canonical ISO
date string, normalizing `s` again returns `some s`. -/
theorem c6_normalizeDate_idempotent (dateParse : String → Option String)
    (x : DateInput) (s : String)
    (hx : DataFormatterService.normalizeDate dateParse x = some s)
    (hcanon : isCanonicalISO s = true) :
    DataFormatterService.normalizeDate dateParse (.jsStr s) = some s := by
  unfold isCanonicalISO at hcanon
  split at hcanon
  case _ y m d heq =>
    have hbuild : DataFormatterService.buildISODate y m d = some s := eq_of_beq hcanon
    unfold matchFullISO at heq
    split at heq
    case _ ca cb cc cd ch1 ce cf ch2 cg ch hdata =>
      split at heq
      case isFalse => exact Option.noConfusion heq
      case isTrue hcond =>
        have hfacts := hcond
        simp only [Bool.and_eq_true, decide_eq_true_eq] at hfacts
        obtain ⟨⟨⟨⟨⟨⟨⟨⟨⟨hca, hcb⟩, hcc2⟩, hcd⟩, hh1⟩, hce⟩, hcf⟩, hh2⟩, hcg⟩, hch⟩ := hfacts
        have hs : ¬ s = "" := by
          intro h0
          rw [h0] at hdata
          exact List.noConfusion hdata
        have htrim : jsTrim s = s := by
          have hwa : isWSChar ca = false := digit_not_ws hca
          have hwh : isWSChar ch = false := digit_not_ws hch
          rw [jsTrim, hdata]
          simp only [List.dropWhile_cons, hwa, Bool.false_eq_true, if_neg,
            List.reverse_cons, List.reverse_nil, List.nil_append, List.cons_append,
            List.append_nil]
          simp only [List.dropWhile, hwh]
          have hrev : ([ch, cg, ch2, cf, ce, ch1, cd, cc, cb, ca] : List Char).reverse =
              [ca, cb, cc, cd, ch1, ce, cf, ch2, cg, ch] := by simp
          rw [hrev, ← hdata]
        have hiso : matchISO s = some (y, m, d) := by
          unfold matchISO
          rw [hdata]
          dsimp only
          rw [if_pos hcond]
          exact heq
        simp only [DataFormatterService.normalizeDate, if_neg hs, htrim, hiso]
        exact hbuild
    case _ =>
      exact Option.noConfusion heq
  case _ =>
    exact absurd hcanon (by simp)

/-- Witness for C6: normalizing `15/03/2023` yields the canonical
`2023-03-15`, and normalizing that output again returns it unchanged. -/
theorem c6_witness :
    DataFormatterService.normalizeDate (fun _ => none) (.jsStr "2023-03-15") =
      some "2023-03-15" := by
  exact c6_normalizeDate_idempotent (fun _ => none) (.jsStr "15/03/2023") "2023-03-15"
    (by decide) (by decide)

/-! ## DataFormatterService: locale number parsing -/

/-- `String(value)` coercion for values reaching the string branch of
`parseLocaleNumber` and the CSV renderer.  Integers print as in JS;
non-integer numbers use a placeholder rendering (JS float formatting is
not modeled — no claim inspects it), objects print as
`[object Object]`. -/
def jsString : JSVal → String
  | .vStr s => s
  | .vNull => "null"
  | .vUndef => "undefined"
  | .vNum q => if q.den = 1 then toString q.num else toString q.num ++ "/" ++ toString q.den
  | .vObj _ => "[object Object]"

/-- `str.replace(",", ".")`: replaces only the first occurrence. -/
def replaceFirstChar (target repl : Char) : List Char → List Char
  | [] => []
  | c :: cs => if c = target then repl :: cs else c :: replaceFirstChar target repl cs

/-- Value of a digit sequence read in base ten. -/
def natFromDigits (l : List Char) : Nat :=
  l.foldl (fun a c => 10 * a + dv c) 0

/-- Exponent suffix of the JS decimal-literal grammar (`e`/`E`, optional
sign, digits); anything else after the mantissa makes the whole literal
`NaN`. -/
def jsNumExp (mant : ℚ) : List Char → Option ℚ
  | [] => some mant
  | c :: cs =>
    if c = 'e' || c = 'E' then
      match cs with
      | '+' :: ds =>
        if !ds.isEmpty && ds.all isDigitCh then some (mant * 10 ^ natFromDigits ds) else none
      | '-' :: ds =>
        if !ds.isEmpty && ds.all isDigitCh then some (mant / 10 ^ natFromDigits ds) else none
      | ds =>
        if !ds.isEmpty && ds.all isDigitCh then some (mant * 10 ^ natFromDigits ds) else none
    else none

/-- Unsigned decimal literal `digits [. digits]` or `. digits`, with
optional exponent. -/
def jsNumBody (l : List Char) : Option ℚ :=
  let intPart := l.takeWhile isDigitCh
  let rest := l.dropWhile isDigitCh
  match rest with
  | '.' :: rest2 =>
    let fracPart := rest2.takeWhile isDigitCh
    let rest3 := rest2.dropWhile isDigitCh
    if intPart.isEmpty && fracPart.isEmpty then none
    else jsNumExp ((natFromDigits intPart : ℚ) +
      (natFromDigits fracPart : ℚ) / 10 ^ fracPart.length) rest3
  | _ =>
    if intPart.isEmpty then none
    else jsNumExp (natFromDigits intPart : ℚ) rest

/-- Optional sign in front of the decimal literal. -/
def jsNumSigned : List Char → Option ℚ
  | '+' :: cs => jsNumBody cs
  | '-' :: cs => (jsNumBody cs).map (fun q => -q)
  | cs => jsNumBody cs

/-- `Number(s)` on the string inputs this service produces: internal
whitespace trimming, blank means `0`, then the decimal-literal grammar
(`Infinity` and radix-prefixed literals never occur in locale-number data
and are not modeled); `none` models `NaN`. -/
def jsNumber (s : String) : Option ℚ :=
  let t := ((s.data.dropWhile isWSChar).reverse.dropWhile isWSChar).reverse
  if t.isEmpty then some 0 else jsNumSigned t

namespace DataFormatterService

/-- `DataFormatterService.parseLocaleNumber(value)`: `null`/`undefined`
give `null`; a number passes through (`NaN`, which `ℚ` cannot represent,
would give `null`); otherwise the value is stringified and trimmed, a
blank gives `null`, and if the text contains a comma all dots are
stripped and the first comma becomes a dot before parsing, else the text
is parsed directly. -/
def parseLocaleNumber (value : JSVal) : Option ℚ :=
  match value with
  | .vNull => none
  | .vUndef => none
  | .vNum q => some q
  | v =>
    let trimmed := jsTrim (jsString v)
    if trimmed = "" then none
    else if trimmed.data.contains ',' then
      jsNumber (String.mk (replaceFirstChar ',' '.'
        (trimmed.data.filter (fun c => !(c = '.')))))
    else jsNumber trimmed

end DataFormatterService

/-- C5 (amended): `parseLocaleNumber` maps `"1.234,56"` and `"1234.56"`
to `1234.56` and `"abc"` to `null`; every string whose trimmed text
contains a comma is parsed after stripping dots and turning the first
comma into a dot, and every string that is non-blank after trimming and
comma-free is parsed directly by `Number`. -/
theorem c5_parseLocaleNumber :
    DataFormatterService.parseLocaleNumber (.vStr "1.234,56") = some 1234.56 ∧
    DataFormatterService.parseLocaleNumber (.vStr "1234.56") = some 1234.56 ∧
    DataFormatterService.parseLocaleNumber (.vStr "abc") = none ∧
    (∀ s : String, (jsTrim s).data.contains ',' = true →
      DataFormatterService.parseLocaleNumber (.vStr s) =
        jsNumber (String.mk (replaceFirstChar ',' '.'
          ((jsTrim s).data.filter (fun c => !(c = '.')))))) ∧
    (∀ s : String, ¬ jsTrim s = "" → (jsTrim s).data.contains ',' = false →
      DataFormatterService.parseLocaleNumber (.vStr s) = jsNumber (jsTrim s)) := by
  refine ⟨?_, ?_, rfl, ?_, ?_⟩
  · rw [show DataFormatterService.parseLocaleNumber (.vStr "1.234,56") =
      some (((1234 : ℕ) : ℚ) + ((56 : ℕ) : ℚ) / 10 ^ 2) from rfl]
    norm_num
  · rw [show DataFormatterService.parseLocaleNumber (.vStr "1234.56") =
      some (((1234 : ℕ) : ℚ) + ((56 : ℕ) : ℚ) / 10 ^ 2) from rfl]
    norm_num
  · intro s hc
    have htne : ¬ jsTrim s = "" := by
      intro h0
      rw [h0] at hc
      exact absurd hc (by decide)
    simp only [DataFormatterService.parseLocaleNumber, jsString, if_neg htne, hc, if_true]
  · intro s htne hc
    simp only [DataFormatterService.parseLocaleNumber, jsString, if_neg htne, hc,
      Bool.false_eq_true, if_false]

/-- C5 counterexample to the claim as stated: the blank string `" "` is a
comma-free string input, but it is not parsed directly — `Number` on its
trimmed text yields `0`, while `parseLocaleNumber` short-circuits blank
input to `null` before parsing. -/
theorem c5_counterexample :
    DataFormatterService.parseLocaleNumber (.vStr " ") = none ∧
    jsNumber (jsTrim " ") = some 0 ∧
    DataFormatterService.parseLocaleNumber (.vStr " ") ≠ jsNumber (jsTrim " ") := by
  have h1 : DataFormatterService.parseLocaleNumber (.vStr " ") = none := rfl
  have h2 : jsNumber (jsTrim " ") = some 0 := rfl
  refine ⟨h1, h2, ?_⟩
  rw [h1, h2]
  exact fun h => Option.noConfusion h

/-- Witness for C5's comma-free part at the non-blank input `"7"`. -/
theorem c5_witness :
    DataFormatterService.parseLocaleNumber (.vStr "7") = jsNumber (jsTrim "7") := by
  exact c5_parseLocaleNumber.2.2.2.2 "7" (by decide) (by decide)

/-! ## DataFormatterService: output formatting -/

/-- A raw joined row as the store returns it, restricted to the columns
the formatters read. -/
structure RawRow where
  idabioticocoluna : JSVal
  datamedida : JSVal
  horamedida : JSVal
  profundidade : JSVal
  dic : JSVal
  nt : JSVal
  pt : JSVal
  delta13c : JSVal
  delta15n : JSVal
  idsitio : JSVal
  sitio_nome : JSVal
  sitio_lat : JSVal
  sitio_lng : JSVal
  sitio_descricao : JSVal
  idcampanha : JSVal
  nrocampanha : JSVal
  campanha_datainicio : JSVal
  campanha_datafim : JSVal
  idreservatorio : JSVal
  reservatorio_nome : JSVal

/-- Adapts a row value to `normalizeDate`'s declared input type
(`string | Date | null | undefined`); the store delivers these columns as
strings or `null` here, values outside the declared type are not
modeled. -/
def toDateInput : JSVal → DateInput
  | .vStr s => .jsStr s
  | .vUndef => .jsUndef
  | _ => .jsNull

/-- A normalizer result as a record value: the JS functions return the
string/number, or `null`. -/
def optStrVal : Option String → JSVal
  | some s => .vStr s
  | none => .vNull

/-- A numeric normalizer result as a record value. -/
def optNumVal : Option ℚ → JSVal
  | some q => .vNum q
  | none => .vNull

namespace DataFormatterService

/-- `DataFormatterService.formatListOutput(row)`: a `null` row gives
`null`; otherwise the source's flat object literal — identifiers copied,
the date and the six numeric fields normalized, and the relationship
fields written as `idsitio ? sitio_nome : undefined` and
`idcampanha ? nrocampanha : undefined`. -/
def formatListOutput (dateParse : String → Option String) :
    Option RawRow → Option (List (String × JSVal))
  | none => none
  | some row => some [
      ("idabioticocoluna", row.idabioticocoluna),
      ("datamedida", optStrVal (normalizeDate dateParse (toDateInput row.datamedida))),
      ("horamedida", row.horamedida),
      ("profundidade", optNumVal (parseLocaleNumber row.profundidade)),
      ("dic", optNumVal (parseLocaleNumber row.dic)),
      ("nt", optNumVal (parseLocaleNumber row.nt)),
      ("pt", optNumVal (parseLocaleNumber row.pt)),
      ("delta13c", optNumVal (parseLocaleNumber row.delta13c)),
      ("delta15n", optNumVal (parseLocaleNumber row.delta15n)),
      ("sitio", if jsTruthy row.idsitio then row.sitio_nome else .vUndef),
      ("campanha", if jsTruthy row.idcampanha then row.nrocampanha else .vUndef)]

/-- `DataFormatterService.formatDetailOutput(row)`: like the list shape
but with nested `sitio`/`campanha` objects (the `campanha` object itself
nesting a `reservatorio` object), each guarded by the truthiness of its
foreign key with `undefined` in the falsy branch. -/
def formatDetailOutput (dateParse : String → Option String) :
    Option RawRow → Option (List (String × JSVal))
  | none => none
  | some row => some [
      ("idabioticocoluna", row.idabioticocoluna),
      ("datamedida", optStrVal (normalizeDate dateParse (toDateInput row.datamedida))),
      ("horamedida", row.horamedida),
      ("profundidade", optNumVal (parseLocaleNumber row.profundidade)),
      ("dic", optNumVal (parseLocaleNumber row.dic)),
      ("nt", optNumVal (parseLocaleNumber row.nt)),
      ("pt", optNumVal (parseLocaleNumber row.pt)),
      ("delta13c", optNumVal (parseLocaleNumber row.delta13c)),
      ("delta15n", optNumVal (parseLocaleNumber row.delta15n)),
      ("sitio",
        if jsTruthy row.idsitio then
          .vObj [
            ("idsitio", row.idsitio),
            ("nome", row.sitio_nome),
            ("lat", optNumVal (parseLocaleNumber row.sitio_lat)),
            ("lng", optNumVal (parseLocaleNumber row.sitio_lng)),
            ("descricao", row.sitio_descricao)]
        else .vUndef),
      ("campanha",
        if jsTruthy row.idcampanha then
          .vObj [
            ("idcampanha", row.idcampanha),
            ("nroCampanha", row.nrocampanha),
            ("dataInicio", optStrVal (normalizeDate dateParse (toDateInput row.campanha_datainicio))),
            ("dataFim", optStrVal (normalizeDate dateParse (toDateInput row.campanha_datafim))),
            ("reservatorio",
              if jsTruthy row.idreservatorio then
                .vObj [
                  ("idreservatorio", row.idreservatorio),
                  ("nome", row.reservatorio_nome)]
              else .vUndef)]
        else .vUndef)]

end DataFormatterService

lemma lookupField_jsonFields_none {l : List (String × JSVal)} {key : String}
    (h : ∀ kv ∈ l, kv.1 = key → isUndef kv.2 = true) :
    lookupField (jsonFields l) key = none := by
  induction l with
  | nil => rfl
  | cons kv t ih =>
    obtain ⟨k, v⟩ := kv
    simp only [jsonFields, List.filter_cons]
    by_cases hu : (!isUndef v) = true
    · rw [if_pos hu]
      rw [lookupField]
      have hne : ¬ k = key := by
        intro he
        have := h (k, v) (List.mem_cons_self _ _) he
        rw [this] at hu
        exact absurd hu (by decide)
      rw [if_neg hne]
      exact ih fun kv2 hm he => h kv2 (List.mem_cons_of_mem _ hm) he
    · rw [if_neg hu]
      exact ih fun kv2 hm he => h kv2 (List.mem_cons_of_mem _ hm) he

/-- A concrete row whose foreign keys are `null` and whose display fields
are populated. -/
def rowNullFK : RawRow :=
  { idabioticocoluna := .vNum 1, datamedida := .vNull, horamedida := .vNull,
    profundidade := .vNull, dic := .vNull, nt := .vNull, pt := .vNull,
    delta13c := .vNull, delta15n := .vNull,
    idsitio := .vNull, sitio_nome := .vStr "Lago Azul", sitio_lat := .vNull,
    sitio_lng := .vNull, sitio_descricao := .vNull,
    idcampanha := .vNull, nrocampanha := .vNum 7,
    campanha_datainicio := .vNull, campanha_datafim := .vNull,
    idreservatorio := .vNull, reservatorio_nome := .vNull }

/-- A concrete row with falsy but non-null foreign keys (`idsitio = 0`,
`idcampanha = ''`) and populated display fields. -/
def rowZeroFK : RawRow :=
  { idabioticocoluna := .vNum 1, datamedida := .vNull, horamedida := .vNull,
    profundidade := .vNull, dic := .vNull, nt := .vNull, pt := .vNull,
    delta13c := .vNull, delta15n := .vNull,
    idsitio := .vNum 0, sitio_nome := .vStr "Lago Azul", sitio_lat := .vNull,
    sitio_lng := .vNull, sitio_descricao := .vNull,
    idcampanha := .vStr "", nrocampanha := .vNum 7,
    campanha_datainicio := .vNull, campanha_datafim := .vNull,
    idreservatorio := .vNull, reservatorio_nome := .vNull }

/-- A concrete row with a truthy campaign key but `idreservatorio = 0`. -/
def rowZeroRes : RawRow :=
  { idabioticocoluna := .vNum 1, datamedida := .vNull, horamedida := .vNull,
    profundidade := .vNull, dic := .vNull, nt := .vNull, pt := .vNull,
    delta13c := .vNull, delta15n := .vNull,
    idsitio := .vNull, sitio_nome := .vNull, sitio_lat := .vNull,
    sitio_lng := .vNull, sitio_descricao := .vNull,
    idcampanha := .vNum 5, nrocampanha := .vNum 7,
    campanha_datainicio := .vNull, campanha_datafim := .vNull,
    idreservatorio := .vNum 0, reservatorio_nome := .vStr "Furnas" }

/-- C7 counterexample to the claim as stated: at a row whose `idsitio` is
`null`, the record returned by `formatListOutput` does not omit the
`sitio` key — the key is present, holding `undefined`. -/
theorem c7_counterexample :
    lookupField ((DataFormatterService.formatListOutput (fun _ => none)
        (some rowNullFK)).getD []) "sitio" = some JSVal.vUndef ∧
    (((DataFormatterService.formatListOutput (fun _ => none)
        (some rowNullFK)).getD []).map Prod.fst).contains "sitio" = true :=
  ⟨rfl, rfl⟩

/-- C7 (amended): for every row, a `null` `idsitio` makes the `sitio`
property `undefined` — present on the raw record but dropped by JSON
serialization (so the serialized output omits it; it is never `null`),
and symmetrically for `campanha`; with a truthy foreign key the field
carries `sitio_nome` / `nrocampanha`. -/
theorem c7_formatListOutput_relationships (dateParse : String → Option String)
    (row : RawRow) :
    (row.idsitio = .vNull →
      lookupField ((DataFormatterService.formatListOutput dateParse (some row)).getD [])
        "sitio" = some .vUndef ∧
      lookupField (jsonFields ((DataFormatterService.formatListOutput dateParse
        (some row)).getD [])) "sitio" = none) ∧
    (row.idcampanha = .vNull →
      lookupField ((DataFormatterService.formatListOutput dateParse (some row)).getD [])
        "campanha" = some .vUndef ∧
      lookupField (jsonFields ((DataFormatterService.formatListOutput dateParse
        (some row)).getD [])) "campanha" = none) ∧
    (jsTruthy row.idsitio = true →
      lookupField ((DataFormatterService.formatListOutput dateParse (some row)).getD [])
        "sitio" = some row.sitio_nome) ∧
    (jsTruthy row.idcampanha = true →
      lookupField ((DataFormatterService.formatListOutput dateParse (some row)).getD [])
        "campanha" = some row.nrocampanha) := by
  have hsitio : lookupField ((DataFormatterService.formatListOutput dateParse
      (some row)).getD []) "sitio" =
      some (if jsTruthy row.idsitio then row.sitio_nome else .vUndef) := rfl
  have hcamp : lookupField ((DataFormatterService.formatListOutput dateParse
      (some row)).getD []) "campanha" =
      some (if jsTruthy row.idcampanha then row.nrocampanha else .vUndef) := rfl
  refine ⟨?_, ?_, ?_, ?_⟩
  · intro h0
    refine ⟨by rw [hsitio, h0]; rfl, ?_⟩
    apply lookupField_jsonFields_none
    intro kv hm he
    simp only [DataFormatterService.formatListOutput, Option.getD_some] at hm
    simp only [List.mem_cons, List.not_mem_nil, or_false] at hm
    rcases hm with rfl|rfl|rfl|rfl|rfl|rfl|rfl|rfl|rfl|rfl|rfl <;>
      first
        | exact absurd he (by dsimp only; decide)
        | (rw [h0]; rfl)
  · intro h0
    refine ⟨by rw [hcamp, h0]; rfl, ?_⟩
    apply lookupField_jsonFields_none
    intro kv hm he
    simp only [DataFormatterService.formatListOutput, Option.getD_some] at hm
    simp only [List.mem_cons, List.not_mem_nil, or_false] at hm
    rcases hm with rfl|rfl|rfl|rfl|rfl|rfl|rfl|rfl|rfl|rfl|rfl <;>
      first
        | exact absurd he (by dsimp only; decide)
        | (rw [h0]; rfl)
  · intro ht
    rw [hsitio, ht]
    rfl
  · intro ht
    rw [hcamp, ht]
    rfl

/-- Witness for C7 at a concrete row with `null` foreign keys: the JSON
serialization of the formatted record has no `sitio` key. -/
theorem c7_witness :
    lookupField (jsonFields ((DataFormatterService.formatListOutput (fun _ => none)
      (some rowNullFK)).getD [])) "sitio" = none := by
  exact ((c7_formatListOutput_relationships (fun _ => none) rowNullFK).1 rfl).2

/-- C10 counterexample to the claim as stated: at a row with
`idsitio = 0` and a non-null `sitio_nome`, the output of
`formatListOutput` does contain a `sitio` field (holding `undefined`);
it is only the JSON serialization that lacks it. -/
theorem c10_counterexample :
    lookupField ((DataFormatterService.formatListOutput (fun _ => none)
        (some rowZeroFK)).getD []) "sitio" = some JSVal.vUndef ∧
    (((DataFormatterService.formatListOutput (fun _ => none)
        (some rowZeroFK)).getD []).map Prod.fst).contains "sitio" = true :=
  ⟨rfl, rfl⟩

/-- C10 (amended): the formatters guard relationship fields by JS
truthiness, so every falsy foreign key — `0` and `''`, not only `null` —
makes the field `undefined` (hence absent from the JSON serialization,
though the key remains on the raw record): shown at `idsitio = 0` and
`idcampanha = ''` for the list shape, and at `idreservatorio = 0` inside
the `campanha` object of the detail shape. -/
theorem c10_falsy_fk_undefined :
    (lookupField ((DataFormatterService.formatListOutput (fun _ => none)
        (some rowZeroFK)).getD []) "sitio" = some JSVal.vUndef ∧
     lookupField (jsonFields ((DataFormatterService.formatListOutput (fun _ => none)
        (some rowZeroFK)).getD [])) "sitio" = none) ∧
    (lookupField ((DataFormatterService.formatListOutput (fun _ => none)
        (some rowZeroFK)).getD []) "campanha" = some JSVal.vUndef ∧
     lookupField (jsonFields ((DataFormatterService.formatListOutput (fun _ => none)
        (some rowZeroFK)).getD [])) "campanha" = none) ∧
    (lookupField ((DataFormatterService.formatDetailOutput (fun _ => none)
        (some rowZeroRes)).getD []) "campanha" =
       some (JSVal.vObj [("idcampanha", JSVal.vNum 5), ("nroCampanha", JSVal.vNum 7),
         ("dataInicio", JSVal.vNull), ("dataFim", JSVal.vNull),
         ("reservatorio", JSVal.vUndef)]) ∧
     lookupField (jsonFields [("idcampanha", JSVal.vNum 5), ("nroCampanha", JSVal.vNum 7),
         ("dataInicio", JSVal.vNull), ("dataFim", JSVal.vNull),
         ("reservatorio", JSVal.vUndef)]) "reservatorio" = none) :=
  ⟨⟨rfl, rfl⟩, ⟨rfl, rfl⟩, ⟨rfl, rfl⟩⟩

/-! ## ExportService -/

/-- `str.replace(/"/g, '""')`: every double quote doubled. -/
def dq : List Char → List Char
  | [] => []
  | c :: cs => if c = '"' then '"' :: '"' :: dq cs else c :: dq cs

/-- Whether the first list is a prefix of the second. -/
def startsWithList : List Char → List Char → Bool
  | [], _ => true
  | _ :: _, [] => false
  | a :: as, b :: bs => a = b && startsWithList as bs

/-- `hay.includes(needle)`: substring containment, as JS `String.includes`. -/
def hasSubList (needle : List Char) : List Char → Bool
  | [] => startsWithList needle []
  | c :: t => startsWithList needle (c :: t) || hasSubList needle t

namespace ExportService

/-- `ExportService.escapeCsvValue(value, delimiter)`: `null`/`undefined`
render as the empty string; otherwise the value is stringified and, when
it contains the delimiter, a double quote or a newline, internal double
quotes are doubled and the whole field is wrapped in double quotes. -/
def escapeCsvValue (value : JSVal) (delimiter : String) : String :=
  match value with
  | .vNull => ""
  | .vUndef => ""
  | v =>
    let s := jsString v
    if hasSubList delimiter.data s.data || s.data.contains '"' || s.data.contains '\n' then
      String.mk ('"' :: (dq s.data ++ ['"']))
    else s

/-- `Array.join(sep)`. -/
def joinSep (sep : String) (xs : List String) : String :=
  String.mk (List.intercalate sep.data (xs.map String.data))

/-- The CSV text built by `ExportService.generateCSV` before encoding:
empty data gives an informational line (with headers) or nothing; else
the keys of the first record give the header row and the column order,
each record renders its escaped values in that key order, and rows are
joined by a newline. -/
def generateCSVString (data : List (List (String × JSVal))) (includeHeaders : Bool)
    (delimiter : String) : String :=
  match data with
  | [] => if includeHeaders then "Nenhum dado encontrado" else ""
  | first :: _ =>
    let keys := first.map Prod.fst
    let headerRows := if includeHeaders then [joinSep delimiter keys] else []
    let dataRows := data.map (fun row =>
      joinSep delimiter (keys.map (fun k =>
        escapeCsvValue ((lookupField row k).getD .vUndef) delimiter)))
    joinSep "\n" (headerRows ++ dataRows)

end ExportService

/-- A byte buffer, modeled as its decoded text together with the encoding
it was written in (no claim inspects individual bytes; the ISO-8859-1
transcoding of out-of-range characters is unspecified upstream). -/
structure EncodedBuffer where
  content : String
  encoding : String
deriving DecidableEq

namespace ExportService

/-- `ExportService.encodeBuffer(content, encoding)`: ISO-8859-1 goes
through `iconv`, everything else through UTF-8 `Buffer.from`. -/
def encodeBuffer (content : String) (encoding : String) : EncodedBuffer :=
  if encoding = "iso-8859-1" then ⟨content, "iso-8859-1"⟩ else ⟨content, "utf-8"⟩

/-- `ExportService.generateCSV(data, options)`: build the CSV text, then
encode it. -/
def generateCSV (data : List (List (String × JSVal))) (includeHeaders : Bool)
    (delimiter : String) (encoding : String) : EncodedBuffer :=
  encodeBuffer (generateCSVString data includeHeaders delimiter) encoding

end ExportService

/-- Runtime shape of `ExportFileOptions`: the TS union types are erased
at runtime, so `format`, `delimiter` and `encoding` are arbitrary strings
(the latter two optional). -/
structure ExportFileOptions where
  format : String
  encoding : Option String
  delimiter : Option String
  includeHeaders : Bool

/-- The JS `||` defaulting on an optional string option: `undefined` and
`''` are falsy and give the default. -/
def jsOrStr (o : Option String) (dflt : String) : String :=
  match o with
  | none => dflt
  | some s => if s = "" then dflt else s

namespace ExportService

/-- `ExportService.generateExportFile(data, options)` as its caller
observes it after awaiting.  The method dispatches on
`options.format === 'xlsx'`; the XLSX generator runs the external
`exceljs` library and is therefore a parameter (`xlsxGen`), whose
`Except` result is the settled outcome of its promise, as is the CSV
generator's `ok`.  The method is `async` and its `try` block returns the
generators' promises without `await`; a pending promise is not an
exception, so the surrounding `catch` (which logs and re-throws the
fixed `'Falha ao gerar o arquivo.'`) intercepts only synchronous throws
of the dispatch itself — impossible here, where `options` is always an
object — and never the generators' rejections, which settle after the
`try` has exited and reach the caller with their original error.  The
observable outcome is therefore exactly the chosen generator's
outcome. -/
def generateExportFile
    (xlsxGen : List (List (String × JSVal)) → Bool → Except String EncodedBuffer)
    (data : List (List (String × JSVal))) (options : ExportFileOptions) :
    Except String EncodedBuffer :=
  if options.format = "xlsx" then xlsxGen data options.includeHeaders
  else Except.ok (generateCSV data options.includeHeaders
    (jsOrStr options.delimiter ";") (jsOrStr options.encoding "utf-8"))

end ExportService

/-- C8: the program does not perform the masking the claim describes.
Because `generateExportFile` returns the async generators' promises
without `await`, a generator rejection bypasses the `catch` and reaches
the caller with its original message: at a concrete failing XLSX
generator the caller observes `exceljs exploded`, which is not the fixed
`Falha ao gerar o arquivo.` the claim says is the only error callers can
see. -/
theorem c8_async_rejection_unmasked :
    ExportService.generateExportFile (fun _ _ => .error "exceljs exploded") []
      { format := "xlsx", encoding := none, delimiter := none, includeHeaders := true } =
      .error "exceljs exploded" ∧
    ("exceljs exploded" : String) ≠ "Falha ao gerar o arquivo." := by
  exact ⟨rfl, by decide⟩

/-- C9: `generateExportFile` never validates `options.format`: every
format other than exactly `xlsx` — including values outside the declared
`csv`/`xlsx` set — takes the CSV path, with the delimiter defaulted to
`;` and the encoding to `utf-8` when those options are absent (or empty,
`||` being falsy-based). -/
theorem c9_generateExportFile_format_fallthrough
    (xlsxGen : List (List (String × JSVal)) → Bool → Except String EncodedBuffer)
    (data : List (List (String × JSVal))) (options : ExportFileOptions)
    (hfmt : ¬ options.format = "xlsx") :
    ExportService.generateExportFile xlsxGen data options =
      .ok (ExportService.generateCSV data options.includeHeaders
        (jsOrStr options.delimiter ";") (jsOrStr options.encoding "utf-8")) := by
  unfold ExportService.generateExportFile
  rw [if_neg hfmt]

/-- Witness for C9: format `pdf` (outside the declared union) with absent
delimiter/encoding falls through to CSV with the `;` and `utf-8`
defaults. -/
theorem c9_witness :
    ExportService.generateExportFile (fun _ _ => .error "unused") []
      { format := "pdf", encoding := none, delimiter := none, includeHeaders := true } =
      .ok ⟨"Nenhum dado encontrado", "utf-8"⟩ := by
  rw [c9_generateExportFile_format_fallthrough (fun _ _ => .error "unused") []
    { format := "pdf", encoding := none, delimiter := none, includeHeaders := true }
    (by decide)]
  rfl

/-! ## CSV round trip (C3): the reader and the round-trip proof -/

/-- The CSV reader of the round-trip claim: one left-to-right scan that
splits rows on newlines and fields on the delimiter, where a field that
begins with a double quote runs to the matching closing quote, doubled
quotes inside it collapsing to one (the claim's "stripping the
surrounding quotes and collapsing doubled double quotes").  Arguments:
delimiter, remaining input, whether the scan is inside quotes, the
current partial field. -/
def csvScan (d : Char) : List Char → Bool → List Char → List (List (List Char))
  | [], _, cur => [[cur]]
  | c :: cs, inQ, cur =>
    if inQ then
      if c = '"' then
        match cs with
        | [] => [[cur]]
        | c2 :: cs2 =>
          if c2 = '"' then csvScan d cs2 true (cur ++ ['"'])
          else if c2 = d then
            match csvScan d cs2 false [] with
            | [] => [[cur]]
            | row :: rows => (cur :: row) :: rows
          else if c2 = '\n' then
            [cur] :: csvScan d cs2 false []
          else csvScan d cs2 false (cur ++ [c2])
      else csvScan d cs true (cur ++ [c])
    else
      if c = d then
        match csvScan d cs false [] with
        | [] => [[cur]]
        | row :: rows => (cur :: row) :: rows
      else if c = '\n' then
        [cur] :: csvScan d cs false []
      else if c = '"' && cur.isEmpty then
        csvScan d cs true []
      else csvScan d cs false (cur ++ [c])

/-- Parse a CSV text into rows of field strings by header-row/delimiter
conventions. -/
def parseCSV (d : Char) (s : String) : List (List String) :=
  (csvScan d s.data false []).map (fun row => row.map String.mk)

/-- The string a record value displays as inside the CSV (`null` and
`undefined` render empty). -/
def renderedValue : JSVal → String
  | .vNull => ""
  | .vUndef => ""
  | v => jsString v

/-- Character-level CSV field escaping (single-character delimiter). -/
def escFieldChars (d : Char) (s : List Char) : List Char :=
  if s.contains d || s.contains '"' || s.contains '\n' then '"' :: (dq s ++ ['"'])
  else s

lemma hasSubList_singleton (c : Char) : ∀ l : List Char, hasSubList [c] l = l.contains c := by
  intro l
  induction l with
  | nil => rfl
  | cons a t ih =>
    rw [hasSubList, ih]
    show (decide (c = a) && true || t.contains c) = (a :: t).contains c
    rw [List.contains_cons]
    by_cases h : c = a
    · subst h; simp
    · have h2 : ¬ a = c := fun he => h he.symm
      simp [h, h2]

lemma escapeCsvValue_data (v : JSVal) (d : Char) :
    (ExportService.escapeCsvValue v (String.mk [d])).data =
      escFieldChars d (renderedValue v).data := by
  cases v with
  | vNull => rfl
  | vUndef => rfl
  | vStr s =>
    simp only [ExportService.escapeCsvValue, renderedValue, escFieldChars,
      hasSubList_singleton]
    split
    · rfl
    · rfl
  | vNum q =>
    simp only [ExportService.escapeCsvValue, renderedValue, escFieldChars,
      hasSubList_singleton]
    split
    · rfl
    · rfl
  | vObj fields =>
    simp only [ExportService.escapeCsvValue, renderedValue, escFieldChars,
      hasSubList_singleton]
    split
    · rfl
    · rfl

lemma csvScan_safe_chars (d : Char) :
    ∀ (v rest cur : List Char),
      v.contains d = false → v.contains '"' = false → v.contains '\n' = false →
      csvScan d (v ++ rest) false cur = csvScan d rest false (cur ++ v) := by
  intro v
  induction v with
  | nil => intro rest cur _ _ _; simp
  | cons c t ih =>
    intro rest cur hd hq hn
    simp only [List.contains_cons, Bool.or_eq_false_iff, beq_eq_false_iff_ne, ne_eq] at hd hq hn
    obtain ⟨hcd, htd⟩ := hd
    obtain ⟨hcq, htq⟩ := hq
    obtain ⟨hcn, htn⟩ := hn
    rw [List.cons_append, csvScan.eq_def]
    dsimp only
    rw [if_neg Bool.false_ne_true]
    have hcd' : ¬ c = d := fun h => hcd h.symm
    have hcn' : ¬ c = '\n' := fun h => hcn h.symm
    have hcq' : ¬ c = '"' := fun h => hcq h.symm
    rw [if_neg hcd', if_neg hcn']
    rw [if_neg (show ¬ (decide (c = '"') && cur.isEmpty) = true by simp [hcq'])]
    rw [ih rest (cur ++ [c]) htd htq htn]
    simp

lemma csvScan_quoted_body (d : Char) :
    ∀ (v rest cur : List Char),
      (∀ c2 cs2, rest = c2 :: cs2 → ¬ c2 = '"') →
      csvScan d (dq v ++ '"' :: rest) true cur = csvScan d rest false (cur ++ v) := by
  intro v
  induction v with
  | nil =>
    intro rest cur hrest
    simp only [dq, List.nil_append, List.append_nil]
    cases rest with
    | nil => rfl
    | cons c2 cs2 =>
      have hq2 : ¬ c2 = '"' := hrest c2 cs2 rfl
      rw [csvScan.eq_def]
      conv_rhs => rw [csvScan.eq_def]
      dsimp only
      rw [if_pos (show (true : Bool) = true from rfl)]
      rw [if_pos (show ('"' : Char) = '"' from rfl)]
      rw [if_neg (show ¬ (false : Bool) = true from Bool.false_ne_true)]
      rw [if_neg hq2]
      by_cases h2d : c2 = d
      · rw [if_pos h2d, if_pos h2d]
      · rw [if_neg h2d, if_neg h2d]
        by_cases h2n : c2 = '\n'
        · rw [if_pos h2n, if_pos h2n]
        · rw [if_neg h2n, if_neg h2n]
          rw [if_neg (show ¬ (decide (c2 = '"') && cur.isEmpty) = true by simp [hq2])]
  | cons c t ih =>
    intro rest cur hrest
    by_cases hc : c = '"'
    · subst hc
      rw [show dq ('"' :: t) = '"' :: '"' :: dq t from by rw [dq]; simp]
      rw [List.cons_append, List.cons_append]
      rw [show csvScan d ('"' :: ('"' :: (dq t ++ '"' :: rest))) true cur =
          csvScan d (dq t ++ '"' :: rest) true (cur ++ ['"']) from rfl]
      rw [ih rest (cur ++ ['"']) hrest]
      simp
    · rw [show dq (c :: t) = c :: dq t from by rw [dq]; simp [hc]]
      rw [List.cons_append]
      rw [csvScan.eq_def]
      dsimp only
      rw [if_pos rfl, if_neg hc]
      rw [ih rest (cur ++ [c]) hrest]
      simp

lemma not_needsQuotes_elim {v : List Char} {d : Char}
    (h : ¬ (v.contains d || v.contains '"' || v.contains '\n') = true) :
    v.contains d = false ∧ v.contains '"' = false ∧ v.contains '\n' = false := by
  simp only [Bool.or_eq_true, not_or, Bool.not_eq_true] at h
  exact ⟨h.1.1, h.1.2, h.2⟩

lemma csvScan_open_quote (d : Char) (hdq : ¬ d = '"') (x : List Char) :
    csvScan d ('"' :: x) false [] = csvScan d x true [] := by
  rw [csvScan.eq_def]
  dsimp only
  rw [if_neg Bool.false_ne_true]
  rw [if_neg (fun h => hdq h.symm)]
  rw [if_neg (show ¬ ('"' : Char) = '\n' from by decide)]
  rw [if_pos (show (decide (('"' : Char) = '"') && List.isEmpty ([] : List Char)) = true
    from by decide)]

lemma csvScan_cons_delim (d : Char) (rest cur : List Char) :
    csvScan d (d :: rest) false cur =
      (match csvScan d rest false [] with
       | [] => [[cur]]
       | row :: rows => (cur :: row) :: rows) := by
  rw [csvScan.eq_def]
  dsimp only
  rw [if_neg Bool.false_ne_true, if_pos rfl]

lemma csvScan_cons_newline (d : Char) (hdn : ¬ d = '\n') (rest cur : List Char) :
    csvScan d ('\n' :: rest) false cur = [cur] :: csvScan d rest false [] := by
  rw [csvScan.eq_def]
  dsimp only
  rw [if_neg Bool.false_ne_true, if_neg (fun h => hdn h.symm), if_pos rfl]

lemma csvScan_field_end (d : Char) (hdq : ¬ d = '"') (v : List Char) :
    csvScan d (escFieldChars d v) false [] = [[v]] := by
  rw [escFieldChars]
  by_cases hneed : (v.contains d || v.contains '"' || v.contains '\n') = true
  · rw [if_pos hneed]
    rw [show ('"' :: (dq v ++ ['"']) : List Char) = '"' :: (dq v ++ '"' :: []) from by simp]
    rw [csvScan_open_quote d hdq]
    rw [csvScan_quoted_body d v [] [] (fun c2 cs2 h => by simp at h)]
    rw [List.nil_append]
    rw [csvScan.eq_def]
  · rw [if_neg hneed]
    obtain ⟨h1, h2, h3⟩ := not_needsQuotes_elim hneed
    have hA := csvScan_safe_chars d v [] [] h1 h2 h3
    rw [List.append_nil] at hA
    rw [hA, List.nil_append]
    rw [csvScan.eq_def]

lemma csvScan_field_delim (d : Char) (hdq : ¬ d = '"') (v rest : List Char) :
    csvScan d (escFieldChars d v ++ d :: rest) false [] =
      (match csvScan d rest false [] with
       | [] => [[v]]
       | row :: rows => (v :: row) :: rows) := by
  rw [escFieldChars]
  by_cases hneed : (v.contains d || v.contains '"' || v.contains '\n') = true
  · rw [if_pos hneed]
    rw [show (('"' :: (dq v ++ ['"'])) ++ d :: rest : List Char) =
        '"' :: (dq v ++ '"' :: (d :: rest)) from by simp]
    rw [csvScan_open_quote d hdq]
    rw [csvScan_quoted_body d v (d :: rest) [] (fun c2 cs2 h => by
      injection h with h1 _
      subst h1
      exact fun hh => hdq hh)]
    rw [List.nil_append, csvScan_cons_delim]
  · rw [if_neg hneed]
    obtain ⟨h1, h2, h3⟩ := not_needsQuotes_elim hneed
    rw [csvScan_safe_chars d v (d :: rest) [] h1 h2 h3]
    rw [List.nil_append, csvScan_cons_delim]

lemma csvScan_field_newline (d : Char) (hdq : ¬ d = '"') (hdn : ¬ d = '\n')
    (v rest : List Char) :
    csvScan d (escFieldChars d v ++ '\n' :: rest) false [] =
      [v] :: csvScan d rest false [] := by
  rw [escFieldChars]
  by_cases hneed : (v.contains d || v.contains '"' || v.contains '\n') = true
  · rw [if_pos hneed]
    rw [show (('"' :: (dq v ++ ['"'])) ++ '\n' :: rest : List Char) =
        '"' :: (dq v ++ '"' :: ('\n' :: rest)) from by simp]
    rw [csvScan_open_quote d hdq]
    rw [csvScan_quoted_body d v ('\n' :: rest) [] (fun c2 cs2 h => by
      injection h with h1 _
      subst h1
      decide)]
    rw [List.nil_append, csvScan_cons_newline d hdn]
  · rw [if_neg hneed]
    obtain ⟨h1, h2, h3⟩ := not_needsQuotes_elim hneed
    rw [csvScan_safe_chars d v ('\n' :: rest) [] h1 h2 h3]
    rw [List.nil_append, csvScan_cons_newline d hdn]

lemma intercalate_cons_cons {α : Type} (sep a b : List α) (t : List (List α)) :
    List.intercalate sep (a :: b :: t) = a ++ sep ++ List.intercalate sep (b :: t) := by
  simp [List.intercalate, List.intersperse]

lemma csvScan_row_end (d : Char) (hdq : ¬ d = '"') :
    ∀ (vs : List (List Char)) (v : List Char),
      csvScan d (List.intercalate [d] ((v :: vs).map (escFieldChars d))) false [] =
        [v :: vs] := by
  intro vs
  induction vs with
  | nil =>
    intro v
    rw [show List.intercalate [d] ([v].map (escFieldChars d)) = escFieldChars d v from by
      simp [List.intercalate]]
    exact csvScan_field_end d hdq v
  | cons v2 t ih =>
    intro v
    rw [List.map_cons, List.map_cons, intercalate_cons_cons, ← List.map_cons,
      List.append_assoc]
    rw [show ([d] ++ List.intercalate [d] ((v2 :: t).map (escFieldChars d)) : List Char) =
        d :: List.intercalate [d] ((v2 :: t).map (escFieldChars d)) from rfl]
    rw [csvScan_field_delim d hdq, ih v2]

lemma csvScan_row_newline (d : Char) (hdq : ¬ d = '"') (hdn : ¬ d = '\n') :
    ∀ (vs : List (List Char)) (v rest : List Char),
      csvScan d (List.intercalate [d] ((v :: vs).map (escFieldChars d)) ++ '\n' :: rest)
          false [] =
        (v :: vs) :: csvScan d rest false [] := by
  intro vs
  induction vs with
  | nil =>
    intro v rest
    rw [show List.intercalate [d] ([v].map (escFieldChars d)) = escFieldChars d v from by
      simp [List.intercalate]]
    exact csvScan_field_newline d hdq hdn v rest
  | cons v2 t ih =>
    intro v rest
    rw [List.map_cons, List.map_cons, intercalate_cons_cons, ← List.map_cons,
      List.append_assoc, List.append_assoc]
    rw [show ([d] ++ (List.intercalate [d] ((v2 :: t).map (escFieldChars d)) ++
        '\n' :: rest) : List Char) =
        d :: (List.intercalate [d] ((v2 :: t).map (escFieldChars d)) ++ '\n' :: rest) from rfl]
    rw [csvScan_field_delim d hdq, ih v2 rest]

lemma intercalate_cons_of_ne_nil {α : Type} (sep a : List α) (t : List (List α))
    (ht : t ≠ []) :
    List.intercalate sep (a :: t) = a ++ sep ++ List.intercalate sep t := by
  cases t with
  | nil => exact absurd rfl ht
  | cons b t2 => exact intercalate_cons_cons sep a b t2

lemma csvScan_rows (d : Char) (hdq : ¬ d = '"') (hdn : ¬ d = '\n') :
    ∀ (rs : List (List (List Char))) (r : List (List Char)),
      (∀ x ∈ r :: rs, x ≠ []) →
      csvScan d (List.intercalate ['\n'] ((r :: rs).map
        (fun row => List.intercalate [d] (row.map (escFieldChars d))))) false [] =
        r :: rs := by
  intro rs
  induction rs with
  | nil =>
    intro r hne
    obtain ⟨v, vs, rfl⟩ := List.exists_cons_of_ne_nil (hne r (List.mem_cons_self _ _))
    rw [show List.intercalate ['\n'] ([v :: vs].map
        (fun row => List.intercalate [d] (row.map (escFieldChars d)))) =
        List.intercalate [d] ((v :: vs).map (escFieldChars d)) from by
      simp [List.intercalate]]
    exact csvScan_row_end d hdq vs v
  | cons r2 t ih =>
    intro r hne
    obtain ⟨v, vs, rfl⟩ := List.exists_cons_of_ne_nil (hne _ (List.mem_cons_self _ _))
    rw [List.map_cons, intercalate_cons_of_ne_nil _ _ _ (by simp), List.append_assoc]
    rw [show (['\n'] ++ List.intercalate ['\n'] ((r2 :: t).map
        (fun row => List.intercalate [d] (row.map (escFieldChars d)))) : List Char) =
        '\n' :: List.intercalate ['\n'] ((r2 :: t).map
          (fun row => List.intercalate [d] (row.map (escFieldChars d)))) from rfl]
    rw [csvScan_row_newline d hdq hdn vs v]
    rw [ih r2 (fun x hx => hne x (List.mem_cons_of_mem _ hx))]

lemma joinSep_data (sep : String) (xs : List String) :
    (ExportService.joinSep sep xs).data = List.intercalate sep.data (xs.map String.data) :=
  rfl

lemma map_lookup_eq {α : Type} (f : JSVal → α) :
    ∀ (r : List (String × JSVal)), (r.map Prod.fst).Nodup →
      (r.map Prod.fst).map (fun k => f ((lookupField r k).getD .vUndef)) =
        r.map (fun kv => f kv.2) := by
  intro r
  induction r with
  | nil => intro _; rfl
  | cons kv t ih =>
    intro hnd
    obtain ⟨k0, v0⟩ := kv
    rw [List.map_cons] at hnd
    have hk0 : k0 ∉ t.map Prod.fst := (List.nodup_cons.mp hnd).1
    have hnd' : (t.map Prod.fst).Nodup := (List.nodup_cons.mp hnd).2
    rw [List.map_cons, List.map_cons, List.map_cons]
    congr 1
    · simp [lookupField]
    · rw [← ih hnd']
      apply List.map_congr_left
      intro k hk
      have hne : ¬ k0 = k := fun he => hk0 (he ▸ hk)
      rw [show lookupField ((k0, v0) :: t) k = lookupField t k from by
        simp [lookupField, hne]]

/-- C3 (amended): CSV export round trip.  For every non-empty record
list sharing the (distinct) keys of the first record, where the keys —
written unescaped into the header row — contain neither the delimiter
nor a double quote nor a newline, generating a CSV with headers and
parsing the text back by header row and delimiter reproduces the keys
and every record's values in key order; values containing the
delimiter, a double quote or a newline survive the escape/unescape
round trip unchanged, and `null`/`undefined` values render as the empty
string. -/
theorem c3_generateCSV_roundtrip (d : Char) (hd : d = ',' ∨ d = ';')
    (first : List (String × JSVal)) (rest : List (List (String × JSVal)))
    (hne : first ≠ [])
    (hkeys : ∀ r ∈ first :: rest, r.map Prod.fst = first.map Prod.fst)
    (hnodup : (first.map Prod.fst).Nodup)
    (hsafe : ∀ k ∈ first.map Prod.fst,
      k.data.contains d = false ∧ k.data.contains '"' = false ∧
      k.data.contains '\n' = false) :
    parseCSV d (ExportService.generateCSVString (first :: rest) true (String.mk [d])) =
      (first.map Prod.fst) ::
        (first :: rest).map (fun r => r.map (fun kv => renderedValue kv.2)) := by
  have hdq : ¬ d = '"' := by rcases hd with rfl | rfl <;> decide
  have hdn : ¬ d = '\n' := by rcases hd with rfl | rfl <;> decide
  have h1 : (ExportService.generateCSVString (first :: rest) true (String.mk [d])).data =
      List.intercalate ['\n'] ((ExportService.joinSep (String.mk [d]) (first.map Prod.fst) ::
        (first :: rest).map (fun row => ExportService.joinSep (String.mk [d])
          ((first.map Prod.fst).map (fun k =>
            ExportService.escapeCsvValue ((lookupField row k).getD .vUndef)
              (String.mk [d]))))).map String.data) := rfl
  have hrow : ∀ r ∈ first :: rest,
      (ExportService.joinSep (String.mk [d]) ((first.map Prod.fst).map (fun k =>
        ExportService.escapeCsvValue ((lookupField r k).getD .vUndef)
          (String.mk [d])))).data =
      List.intercalate [d] ((r.map (fun kv => (renderedValue kv.2).data)).map
        (escFieldChars d)) := by
    intro r hr
    rw [joinSep_data]
    rw [show (String.mk [d]).data = [d] from rfl]
    congr 1
    have hre := hkeys r hr
    have hndr : (r.map Prod.fst).Nodup := by rw [hre]; exact hnodup
    rw [← hre]
    rw [map_lookup_eq (fun v => ExportService.escapeCsvValue v (String.mk [d])) r hndr]
    rw [List.map_map, List.map_map]
    apply List.map_congr_left
    intro kv _
    exact escapeCsvValue_data kv.2 d
  have hheader : (ExportService.joinSep (String.mk [d]) (first.map Prod.fst)).data =
      List.intercalate [d] (((first.map Prod.fst).map String.data).map (escFieldChars d)) := by
    rw [joinSep_data, show (String.mk [d]).data = [d] from rfl]
    congr 1
    have hid : ∀ s ∈ (first.map Prod.fst).map String.data, escFieldChars d s = id s := by
      intro s hs
      rcases List.mem_map.mp hs with ⟨k, hk, rfl⟩
      obtain ⟨hs1, hs2, hs3⟩ := hsafe k hk
      show escFieldChars d k.data = k.data
      rw [escFieldChars, hs1, hs2, hs3]
      simp
    rw [List.map_congr_left hid, List.map_id]
  have hcontent : (ExportService.generateCSVString (first :: rest) true
      (String.mk [d])).data =
      List.intercalate ['\n']
        ((((first.map Prod.fst).map String.data) ::
          (first :: rest).map (fun r => r.map (fun kv => (renderedValue kv.2).data))).map
          (fun row => List.intercalate [d] (row.map (escFieldChars d)))) := by
    rw [h1]
    congr 1
    conv_lhs => rw [List.map_cons]
    conv_rhs => rw [List.map_cons]
    congr 1
    rw [List.map_map, List.map_map]
    apply List.map_congr_left
    intro r hr
    exact hrow r hr
  have hrowsne : ∀ x ∈ ((first.map Prod.fst).map String.data) ::
      (first :: rest).map (fun r => r.map (fun kv => (renderedValue kv.2).data)), x ≠ [] := by
    intro x hx
    rcases List.mem_cons.mp hx with rfl | hx2
    · intro h0
      apply hne
      have := congrArg List.length h0
      simp only [List.length_map, List.length_nil] at this
      exact List.eq_nil_of_length_eq_zero this
    · rcases List.mem_map.mp hx2 with ⟨r, hr, rfl⟩
      intro h0
      apply hne
      have hre := hkeys r hr
      have := congrArg List.length h0
      simp only [List.length_map, List.length_nil] at this
      have hrnil : r = [] := List.eq_nil_of_length_eq_zero this
      rw [hrnil] at hre
      exact List.eq_nil_of_length_eq_zero (by
        have := congrArg List.length hre
        simp only [List.length_map, List.length_nil] at this
        exact this.symm)
  rw [parseCSV, hcontent]
  rw [csvScan_rows d hdq hdn
    ((first :: rest).map (fun r => r.map (fun kv => (renderedValue kv.2).data)))
    ((first.map Prod.fst).map String.data) hrowsne]
  rw [List.map_cons]
  congr 1
  · rw [List.map_map]
    have : ∀ x ∈ first.map Prod.fst, (String.mk ∘ String.data) x = id x := fun x _ => rfl
    rw [List.map_congr_left this, List.map_id]
  · rw [List.map_map]
    apply List.map_congr_left
    intro r _
    show (r.map (fun kv => (renderedValue kv.2).data)).map String.mk =
      r.map (fun kv => renderedValue kv.2)
    rw [List.map_map]
    apply List.map_congr_left
    intro kv _
    rfl

/-- C3 counterexample to the claim as stated: header keys are written
unescaped, so a key containing the delimiter splits into two header
fields on parsing and the original key/value pairs are not reproduced. -/
theorem c3_counterexample :
    parseCSV ';' (ExportService.generateCSVString [[("a;b", JSVal.vStr "x")]] true ";") ≠
      [["a;b"], ["x"]] := by decide

/-- Witness for C3 at concrete records whose values contain the
delimiter, a double quote and a newline (and a `null`): the parse
reproduces keys and values exactly. -/
theorem c3_witness :
    parseCSV ';' (ExportService.generateCSVString
      [[("nome", JSVal.vStr "a;b"), ("obs", JSVal.vStr "x\"y")],
       [("nome", JSVal.vStr "lin\nha"), ("obs", JSVal.vNull)]] true (String.mk [';'])) =
      [["nome", "obs"], ["a;b", "x\"y"], ["lin\nha", ""]] := by
  have h := c3_generateCSV_roundtrip ';' (Or.inr rfl)
    [("nome", JSVal.vStr "a;b"), ("obs", JSVal.vStr "x\"y")]
    [[("nome", JSVal.vStr "lin\nha"), ("obs", JSVal.vNull)]]
    (List.cons_ne_nil _ _)
    (by
      intro r hr
      rcases List.mem_cons.mp hr with rfl | hr2
      · rfl
      · rcases List.mem_cons.mp hr2 with rfl | h3
        · rfl
        · simp at h3)
    (by decide)
    (by decide)
  exact h.trans rfl
